import Mathlib

/-!
Shallow embedding of the membership / training-compliance tracker
(`app.py`, `libs/crud_manager.py`, `apps/training/training_data.py`,
`apps/training/crud_operations.py`) and proofs about its Compliance
Engine: due-date projection, status classification, and eligibility
aggregation.

The relational store is embedded as lists of rows; each SQL UPDATE is a
map over the affected table, and each statement is translated clause by
clause from the source.  PostgreSQL month addition (date + n * INTERVAL
of one month, cast back to date) clamps the day to the length of the
target month, which `Date.addMonths` reproduces.
-/

namespace SSApp

/-- A calendar date (year, month, day). -/
structure Date where
  year : Nat
  month : Nat
  day : Nat
deriving DecidableEq, Repr

/-- Date comparison, year then month then day (SQL date comparison). -/
def Date.le (a b : Date) : Bool :=
  decide (a.year < b.year ∨ (a.year = b.year ∧
    (a.month < b.month ∨ (a.month = b.month ∧ a.day ≤ b.day))))

def isLeapYear (y : Nat) : Bool :=
  (y % 4 == 0 && y % 100 != 0) || y % 400 == 0

def daysInMonth (y m : Nat) : Nat :=
  if m == 2 then (if isLeapYear y then 29 else 28)
  else if m == 4 || m == 6 || m == 9 || m == 11 then 30
  else 31

/-- PostgreSQL `date + n * INTERVAL` of one month, cast to date: the
month index advances by `n` and the day is clamped to the length of the
target month. -/
def Date.addMonths (d : Date) (n : Nat) : Date :=
  let m0 := d.month - 1 + n
  let y := d.year + m0 / 12
  let m := m0 % 12 + 1
  { year := y, month := m, day := min d.day (daysInMonth y m) }

/-- Row of `training_course_data`. -/
structure Course where
  courseid : String
  frequency_in_months : Nat
  venue : String
deriving DecidableEq, Repr

/-- Row of `personal_data` (fields the engine touches). -/
structure Member where
  id : Nat
  userid : String
  first_name : String
  last_name : String
  email : String
  eligibility : String
deriving DecidableEq, Repr

/-- Row of `training_status_data`. -/
structure TrainingRecord where
  id : Nat
  userid : String
  courseid : String
  completion_date : Option Date
  due_date : Option Date
  status : Option String
deriving DecidableEq, Repr

/-- The relational store.  `nextRecordId` and `nextMemberId` model the
SERIAL id sequences. -/
structure Store where
  courses : List Course
  members : List Member
  records : List TrainingRecord
  logins : List String
  nextRecordId : Nat
  nextMemberId : Nat
deriving DecidableEq, Repr

/-- Course lookup by courseid (the joins and scalar subqueries on
`training_course_data`). -/
def lookupCourse (courses : List Course) (cid : String) : Option Course :=
  courses.find? (fun c => c.courseid == cid)

/-! ## update_training_statuses (app.py, lines 173 to 229)

Three UPDATE statements executed in order on one connection and
committed together. -/

/-- Stage 1 of `update_training_statuses`, per record: the
UPDATE ... FROM join sets
`due_date = completion_date + frequency_in_months * INTERVAL` of one
month, only for rows whose courseid matches a course row and whose
completion_date is non-null; all other rows are untouched. -/
def dueProject (courses : List Course) (t : TrainingRecord) : TrainingRecord :=
  match t.completion_date, lookupCourse courses t.courseid with
  | some cd, some c =>
      { t with due_date := some (cd.addMonths c.frequency_in_months) }
  | _, _ => t

/-- Stage 2 of `update_training_statuses`, per record: guarded by
`WHERE completion_date IS NOT NULL`, so rows with null completion_date
are untouched (which makes the CASE branch
`WHEN completion_date IS NULL THEN NULL` of the source unreachable).
For the updated rows, `CAST(due_date AS DATE) >= CURRENT_DATE` yields
Current, anything else (including a null due_date, for which the SQL
comparison is unknown) yields Overdue. -/
def classifyStatus (today : Date) (t : TrainingRecord) : TrainingRecord :=
  match t.completion_date with
  | some _ =>
      { t with status := some (match t.due_date with
          | some dd => if Date.le today dd then "Current" else "Overdue"
          | none => "Overdue") }
  | none => t

/-- `EXISTS (SELECT 1 FROM training_status_data t WHERE t.userid = uid
AND t.courseid = cid AND t.status = 'Current')`. -/
def hasCurrentFor (recs : List TrainingRecord) (uid cid : String) : Bool :=
  recs.any (fun t => t.userid == uid && t.courseid == cid && t.status == some "Current")

/-- Stage 3 of `update_training_statuses`, per member: the doubly
nested NOT EXISTS says that no catalog course lacks a Current record of
this member, i.e. every catalog course has one. -/
def utsElig (courses : List Course) (recs : List TrainingRecord) (uid : String) : String :=
  if courses.all (fun c => hasCurrentFor recs uid c.courseid) then "Eligible"
  else "Ineligible"

/-- Per-member effect of the stage 3 UPDATE (it touches every row of
`personal_data`). -/
def utsMemberRow (courses : List Course) (recs : List TrainingRecord) (m : Member) : Member :=
  { m with eligibility := utsElig courses recs m.userid }

/-- `update_training_statuses` (app.py): due-date projection, then
status classification, then full-table eligibility aggregation, all on
one connection with a single commit at the end. -/
def update_training_statuses (today : Date) (s : Store) : Store :=
  let recs := (s.records.map (dueProject s.courses)).map (classifyStatus today)
  { s with
      records := recs,
      members := s.members.map (utsMemberRow s.courses recs) }

/-! ## CRUDManager (libs/crud_manager.py) -/

/-- Python truthiness of `data.get(field)` in `_validate_data`: a
missing key, None, and the empty string are all falsy. -/
def present : Option String → Bool
  | some s => !s.isEmpty
  | none => false

/-- The dictionary passed to `CRUDManager.add_member`; absent or None
fields are `none`. -/
structure MemberInput where
  first_name : Option String
  last_name : Option String
  email : Option String
deriving DecidableEq, Repr

/-- `_validate_data(member_data, required_fields)` with
`required_fields = [first_name, last_name, email]`: the fields whose
values are falsy. -/
def missingMemberFields (md : MemberInput) : List String :=
  (if present md.first_name then [] else ["first_name"]) ++
  (if present md.last_name then [] else ["last_name"]) ++
  (if present md.email then [] else ["email"])

/-- `_validate_data` succeeds on member data: no required field is
falsy (equivalently, `missingMemberFields` is empty). -/
def memberDataValid (md : MemberInput) : Bool :=
  present md.first_name && present md.last_name && present md.email

/-- The userid generated by `add_member`: the lowercased first letter
of the first name followed by the lowercased last name (spelled over
character lists so that it evaluates by kernel reduction). -/
def genUserid (fn ln : String) : String :=
  String.mk ((fn.data.take 1).map Char.toLower ++ ln.data.map Char.toLower)

/-- `CRUDManager.add_member`: validate, then in one transaction insert
a login row and a personal row whose eligibility column is the literal
string Ineligible.  On validation failure the ValidationError is raised
before any write. -/
def add_member (md : MemberInput) (s : Store) : Except String Nat × Store :=
  if memberDataValid md then
    let fn := md.first_name.getD ""
    let ln := md.last_name.getD ""
    let em := md.email.getD ""
    let userid := genUserid fn ln
    let newId := s.nextMemberId
    let m : Member :=
      { id := newId, userid := userid, first_name := fn, last_name := ln,
        email := em, eligibility := "Ineligible" }
    (Except.ok newId,
      { s with
          logins := s.logins ++ [userid],
          members := s.members ++ [m],
          nextMemberId := newId + 1 })
  else
    (Except.error ("Missing required fields: " ++
      String.intercalate ", " (missingMemberFields md)), s)

/-- `EXISTS (... WHERE userid = uid AND status = 'Overdue')` /
`NOT EXISTS (... WHERE userid = uid)` / ELSE of
`_update_member_eligibility`. -/
def umeElig (recs : List TrainingRecord) (uid : String) : String :=
  if recs.any (fun t => t.userid == uid && t.status == some "Overdue") then "Ineligible"
  else if !(recs.any (fun t => t.userid == uid)) then "Ineligible"
  else "Eligible"

/-- Per-member effect of the `_update_member_eligibility` UPDATE,
scoped by `WHERE userid = :userid`. -/
def umeMemberRow (recs : List TrainingRecord) (uid : String) (m : Member) : Member :=
  if m.userid == uid then { m with eligibility := umeElig recs uid } else m

/-- `CRUDManager._update_member_eligibility(userid)`: one UPDATE of
`personal_data` scoped by `WHERE userid = :userid`, run on a connection
of its own (`engine.begin()` inside the function). -/
def update_member_eligibility (uid : String) (s : Store) : Store :=
  { s with members := s.members.map (umeMemberRow s.records uid) }

/-- The dictionary passed to `CRUDManager.add_training`; the
completion date is date-typed, with `none` standing for a missing,
None, or empty value (all falsy for `_validate_data`). -/
structure TrainingInput where
  userid : Option String
  courseid : Option String
  completion_date : Option Date
deriving DecidableEq, Repr

/-- `_validate_data(training_data, [userid, courseid, completion_date])`
succeeds. -/
def trainingDataValid (ti : TrainingInput) : Bool :=
  present ti.userid && present ti.courseid && ti.completion_date.isSome

/-- Per-row effect of the due-date UPDATE of `add_training` /
`update_training`, scoped by `WHERE id = :id`:
`completion_date::date + (scalar subquery) * INTERVAL` of one month.
A null completion date or an unresolved course makes the whole
expression null, which is then written to due_date. -/
def crudDueRow (courses : List Course) (rid : Nat) (t : TrainingRecord) : TrainingRecord :=
  if t.id == rid then
    { t with due_date :=
        match t.completion_date, lookupCourse courses t.courseid with
        | some cd, some c => some (cd.addMonths c.frequency_in_months)
        | _, _ => none }
  else t

def crudDueUpdate (rid : Nat) (s : Store) : Store :=
  { s with records := s.records.map (crudDueRow s.courses rid) }

/-- Per-row effect of the status UPDATE of `add_training` /
`update_training`, scoped by `WHERE id = :id`: Current when
`CAST(due_date AS date) >= CURRENT_DATE`, else Overdue (a null due_date
compares unknown and falls to ELSE). -/
def crudStatusRow (today : Date) (rid : Nat) (t : TrainingRecord) : TrainingRecord :=
  if t.id == rid then
    { t with status := some (match t.due_date with
        | some dd => if Date.le today dd then "Current" else "Overdue"
        | none => "Overdue") }
  else t

def crudStatusUpdate (today : Date) (rid : Nat) (s : Store) : Store :=
  { s with records := s.records.map (crudStatusRow today rid) }

/-- `CRUDManager.add_training`: validate, then inside `engine.begin()`
insert the record, run the due-date and status UPDATEs scoped to the new
id, and call `_update_member_eligibility`.  That call opens a second
pooled connection inside the still-open outer transaction; under READ
COMMITTED its snapshot does not contain the uncommitted insert, so the
eligibility it writes is computed over the pre-insert records, and it
commits on its own before the outer transaction does. -/
def add_training (ti : TrainingInput) (today : Date) (s : Store) :
    Except String Nat × Store :=
  if trainingDataValid ti then
    let uid := ti.userid.getD ""
    let cid := ti.courseid.getD ""
    let cd := ti.completion_date.getD ⟨0, 1, 1⟩
    let newId := s.nextRecordId
    let s1 : Store :=
      { s with
          records := s.records ++
            [{ id := newId, userid := uid, courseid := cid,
               completion_date := some cd, due_date := none, status := none }],
          nextRecordId := newId + 1 }
    let s3 := crudStatusUpdate today newId (crudDueUpdate newId s1)
    (Except.ok newId,
      { s3 with members := (update_member_eligibility uid s).members })
  else
    (Except.error "Missing required fields: userid, courseid, completion_date", s)

/-- `CRUDManager.update_training`: the first UPDATE sets
completion_date and RETURNING userid; a falsy userid (no such row, or an
empty stored userid) makes the function return False with no further
update, the transaction still committing whatever the first UPDATE did.
Otherwise the due-date and status UPDATEs run scoped to the id and
`_update_member_eligibility` runs on its own connection, whose snapshot
predates the uncommitted completion-date change. -/
def setCompletionRow (tid : Nat) (ncd : Option Date) (t : TrainingRecord) : TrainingRecord :=
  if t.id == tid then { t with completion_date := ncd } else t

def update_training (tid : Nat) (ncd : Option Date) (today : Date) (s : Store) :
    Except String Bool × Store :=
  match s.records.find? (fun t => t.id == tid) with
  | none => (Except.ok false, s)
  | some t0 =>
    let s1 : Store :=
      { s with records := s.records.map (setCompletionRow tid ncd) }
    if t0.userid.isEmpty then (Except.ok false, s1)
    else
      let s3 := crudStatusUpdate today tid (crudDueUpdate tid s1)
      (Except.ok true,
        { s3 with members := (update_member_eligibility t0.userid s).members })

/-- The CASE of the inline eligibility UPDATE in
`CRUDManager.delete_training`: Ineligible when some record of the member
is Overdue or has null status, else Eligible when some record is
Current, else Ineligible. -/
def deleteElig (recs : List TrainingRecord) (uid : String) : String :=
  if recs.any (fun t => t.userid == uid && (t.status == some "Overdue" || t.status.isNone))
  then "Ineligible"
  else if recs.any (fun t => t.userid == uid && t.status == some "Current")
  then "Eligible"
  else "Ineligible"

/-- `CRUDManager.delete_training`: look up the userid of the record (a
falsy userid returns False with no change), delete the row, then run the
inline eligibility UPDATE scoped by `WHERE userid = :userid`, all on one
connection. -/
def delete_training (tid : Nat) (s : Store) : Except String Bool × Store :=
  match s.records.find? (fun t => t.id == tid) with
  | none => (Except.ok false, s)
  | some t0 =>
    if t0.userid.isEmpty then (Except.ok false, s)
    else
      let recs := s.records.filter (fun t => !(t.id == tid))
      (Except.ok true,
        { s with
            records := recs,
            members := s.members.map (fun m =>
              if m.userid == t0.userid then
                { m with eligibility := deleteElig recs t0.userid }
              else m) })

/-! ## Live UI handlers (apps/training/training_data.py)

These are the handlers wired into the running app by `server` in app.py
(via `server_training_data`).  They execute raw SQL on one connection
and never call any recompute. -/

/-- Form input of the add-training handler. -/
structure TdInput where
  userid : String
  courseid : String
  completion_date : Option Date
deriving DecidableEq, Repr

/-- `handle_add_training` in `server_training_data`: when both course
and user are chosen, INSERT the row with the status column hardcoded to
Current, no due_date, and no recompute of any kind. -/
def td_handle_add_training (inp : TdInput) (s : Store) : Store :=
  if inp.courseid.isEmpty || inp.userid.isEmpty then s
  else
    { s with
        records := s.records ++
          [{ id := s.nextRecordId, userid := inp.userid, courseid := inp.courseid,
             completion_date := inp.completion_date, due_date := none,
             status := some "Current" }],
        nextRecordId := s.nextRecordId + 1 }

/-- `handle_update_training` in `server_training_data`: a bare UPDATE of
completion_date, no recompute. -/
def td_handle_update_training (tid : Nat) (ncd : Option Date) (s : Store) : Store :=
  { s with records := s.records.map (setCompletionRow tid ncd) }

/-- `handle_delete_training` in `server_training_data`: a bare DELETE,
no recompute. -/
def td_handle_delete_training (tid : Nat) (s : Store) : Store :=
  { s with records := s.records.filter (fun t => !(t.id == tid)) }

/-! ## TrainingCRUDManager (apps/training/crud_operations.py) -/

/-- Modelled from the spec: `TrainingCRUDManager.add_training_record`
runs `SELECT update_training_statuses()`, a stored database function
whose definition is not under src/ (no CREATE FUNCTION ships with the
repository); following the spec section 4.1 recompute_all and the
identically named Python pipeline in app.py, it is modelled as the full
three-stage recompute, run after the insert and before the commit. -/
def tcm_add_training_record (uid cid : String) (cd : Date) (today : Date)
    (s : Store) : Nat × Store :=
  let newId := s.nextRecordId
  let s1 : Store :=
    { s with
        records := s.records ++
          [{ id := newId, userid := uid, courseid := cid,
             completion_date := some cd, due_date := none, status := none }],
        nextRecordId := newId + 1 }
  (newId, update_training_statuses today s1)

/-! ## Transaction boundaries

For the atomicity claim, each operation is abstracted to the list of
transactions it commits, in commit order; a database fault between two
commits leaves exactly the prefix of already-committed transactions
applied. -/

def applyTxns (txns : List (Store → Store)) (s : Store) : Store :=
  txns.foldl (fun st f => f st) s

/-- `update_training_statuses` runs its three statements on one
connection with one commit: a single transaction. -/
def utsTxns (today : Date) : List (Store → Store) :=
  [update_training_statuses today]

/-- The transactions committed by `CRUDManager.add_training`, in commit
order: the nested `_update_member_eligibility` transaction commits
first (inside the outer `engine.begin()` block), then the outer
transaction holding the insert and the due-date and status UPDATEs.
On validation failure no transaction is opened. -/
def addTrainingTxns (ti : TrainingInput) (today : Date) : List (Store → Store) :=
  if trainingDataValid ti then
    [update_member_eligibility (ti.userid.getD ""),
     fun s =>
       let newId := s.nextRecordId
       let s1 : Store :=
         { s with
             records := s.records ++
               [{ id := newId, userid := ti.userid.getD "",
                  courseid := ti.courseid.getD "",
                  completion_date := some (ti.completion_date.getD ⟨0, 1, 1⟩),
                  due_date := none, status := none }],
             nextRecordId := newId + 1 }
       crudStatusUpdate today newId (crudDueUpdate newId s1)]
  else []

/-! ## Derived-field consistency predicates -/

/-- One record satisfies the due-date invariant: if its completion date
is non-null and its course reference resolves, its due_date is the
completion date plus the course frequency in calendar months. -/
def recDueOk (courses : List Course) (t : TrainingRecord) : Bool :=
  match t.completion_date, lookupCourse courses t.courseid with
  | some cd, some c => t.due_date == some (cd.addMonths c.frequency_in_months)
  | _, _ => true

/-- Every record with a non-null completion date whose course reference
resolves has `due_date = completion_date` plus the course frequency in
calendar months. -/
def dueConsistentB (s : Store) : Bool :=
  s.records.all (recDueOk s.courses)

/-- Whether a CRUD result is a success (no exception was raised). -/
def isOkResult : Except String Nat → Bool
  | Except.ok _ => true
  | Except.error _ => false


/-! ## Concrete fixtures used by witnesses and counterexamples -/

/-- A reference current date, 2024-02-01. -/
def d0 : Date := ⟨2024, 2, 1⟩

/-- One course, one member with a stale Eligible flag and no records. -/
def storeA : Store :=
  { courses := [⟨"CPR", 12, "gym"⟩],
    members := [⟨1, "alice", "A", "L", "a@x", "Eligible"⟩],
    records := [], logins := ["alice"], nextRecordId := 1, nextMemberId := 2 }

/-- Valid training input for member alice and course CPR. -/
def tiA : TrainingInput := ⟨some "alice", some "CPR", some ⟨2024, 1, 15⟩⟩

/-- The same input as seen by the live UI add handler. -/
def tdA : TdInput := ⟨"alice", "CPR", some ⟨2024, 1, 15⟩⟩

/-- A store whose single record has a null completion date but a
non-null status. -/
def storeNullCompletion : Store :=
  { courses := [], members := [],
    records := [⟨1, "u", "c", none, none, some "Current"⟩],
    logins := [], nextRecordId := 2, nextMemberId := 1 }

/-- Empty course catalog, one member, zero training records. -/
def storeEmptyCatalog : Store :=
  { courses := [], members := [⟨1, "zoe", "Z", "Zz", "z@x", "Ineligible"⟩],
    records := [], logins := ["zoe"], nextRecordId := 1, nextMemberId := 2 }

/-- Catalog {A, B}; pat has a record for A only, bob for both, all
completed on 2024-01-15 (Current as of `d0`). -/
def storeScenario4 : Store :=
  { courses := [⟨"A", 12, "v"⟩, ⟨"B", 6, "v"⟩],
    members := [⟨1, "pat", "P", "Q", "p@x", "Ineligible"⟩,
                ⟨2, "bob", "B", "O", "b@x", "Ineligible"⟩],
    records := [⟨1, "pat", "A", some ⟨2024, 1, 15⟩, none, none⟩,
                ⟨2, "bob", "A", some ⟨2024, 1, 15⟩, none, none⟩,
                ⟨3, "bob", "B", some ⟨2024, 1, 15⟩, none, none⟩],
    logins := ["pat", "bob"], nextRecordId := 4, nextMemberId := 3 }

/-- One member whose single record has a null status (and no Overdue
record). -/
def storeNullStatus : Store :=
  { courses := [⟨"CPR", 12, "gym"⟩],
    members := [⟨1, "dave", "D", "V", "d@x", "Ineligible"⟩],
    records := [⟨1, "dave", "CPR", some ⟨2024, 1, 15⟩, none, none⟩],
    logins := ["dave"], nextRecordId := 2, nextMemberId := 2 }

/-! ## Helper lemmas -/

lemma classifyStatus_completion (today : Date) (t : TrainingRecord) :
    (classifyStatus today t).completion_date = t.completion_date := by
  cases hc : t.completion_date <;> simp [classifyStatus, hc]

lemma classifyStatus_due (today : Date) (t : TrainingRecord) :
    (classifyStatus today t).due_date = t.due_date := by
  cases hc : t.completion_date <;> simp [classifyStatus, hc]

lemma classifyStatus_userid (today : Date) (t : TrainingRecord) :
    (classifyStatus today t).userid = t.userid := by
  cases hc : t.completion_date <;> simp [classifyStatus, hc]

lemma classifyStatus_courseid (today : Date) (t : TrainingRecord) :
    (classifyStatus today t).courseid = t.courseid := by
  cases hc : t.completion_date <;> simp [classifyStatus, hc]

lemma dueProject_completion (cs : List Course) (t : TrainingRecord) :
    (dueProject cs t).completion_date = t.completion_date := by
  unfold dueProject
  cases hc : t.completion_date <;> cases hl : lookupCourse cs t.courseid <;> simp [hc, hl]

lemma dueProject_userid (cs : List Course) (t : TrainingRecord) :
    (dueProject cs t).userid = t.userid := by
  unfold dueProject
  cases hc : t.completion_date <;> cases hl : lookupCourse cs t.courseid <;> simp [hc, hl]

lemma dueProject_courseid (cs : List Course) (t : TrainingRecord) :
    (dueProject cs t).courseid = t.courseid := by
  unfold dueProject
  cases hc : t.completion_date <;> cases hl : lookupCourse cs t.courseid <;> simp [hc, hl]

/-- A record that has gone through due-date projection and status
classification satisfies the due-date invariant. -/
lemma recDueOk_of_recompute (cs : List Course) (today : Date) (t : TrainingRecord) :
    recDueOk cs (classifyStatus today (dueProject cs t)) = true := by
  unfold recDueOk
  rw [classifyStatus_completion, classifyStatus_due, classifyStatus_courseid,
    dueProject_completion, dueProject_courseid]
  cases hc : t.completion_date <;> cases hl : lookupCourse cs t.courseid <;>
    simp [dueProject, hc, hl]


/-- A record the id-scoped UPDATE pair does not target is unchanged. -/
lemma crudRows_skip (cs : List Course) (today : Date) (rid : Nat) (t : TrainingRecord)
    (h : (t.id == rid) = false) :
    crudStatusRow today rid (crudDueRow cs rid t) = t := by
  unfold crudDueRow crudStatusRow
  simp [h]

/-- The record the id-scoped UPDATE pair targets comes out satisfying
the due-date invariant. -/
lemma crudRows_fix (cs : List Course) (today : Date) (rid : Nat) (t : TrainingRecord)
    (h : (t.id == rid) = true) :
    recDueOk cs (crudStatusRow today rid (crudDueRow cs rid t)) = true := by
  cases hc : t.completion_date <;> cases hl : lookupCourse cs t.courseid <;>
    simp [crudDueRow, crudStatusRow, recDueOk, h, hc, hl]

lemma recDueOk_crudRows (cs : List Course) (today : Date) (rid : Nat) (t : TrainingRecord)
    (h : recDueOk cs t = true) :
    recDueOk cs (crudStatusRow today rid (crudDueRow cs rid t)) = true := by
  cases hid : (t.id == rid)
  · rw [crudRows_skip cs today rid t hid]; exact h
  · exact crudRows_fix cs today rid t hid

lemma recDueOk_update_rows (cs : List Course) (today : Date) (rid : Nat)
    (ncd : Option Date) (t : TrainingRecord) (h : recDueOk cs t = true) :
    recDueOk cs (crudStatusRow today rid (crudDueRow cs rid (setCompletionRow rid ncd t))) = true := by
  cases hid : (t.id == rid)
  · have hs : setCompletionRow rid ncd t = t := by unfold setCompletionRow; simp [hid]
    rw [hs, crudRows_skip cs today rid t hid]; exact h
  · have hid2 : ((setCompletionRow rid ncd t).id == rid) = true := by
      unfold setCompletionRow; simp [hid]
    exact crudRows_fix cs today rid _ hid2

/-- C1: after the full recompute `update_training_statuses`, and after
the inline recompute performed by `CRUDManager.add_training` and
`CRUDManager.update_training` (the latter whenever its recompute runs,
i.e. the call returns True), every TrainingRecord with a non-null
completion_date whose course reference resolves has
`due_date = completion_date` plus the course frequency_in_months in
calendar months; for the single-record recomputes this holds for the
affected record outright and is preserved for all others. -/
theorem C1_due_date_projection (today : Date) (s : Store) (ti : TrainingInput)
    (tid : Nat) (ncd : Option Date)
    (hdue : dueConsistentB s = true)
    (hok : (update_training tid ncd today s).1 = Except.ok true) :
    dueConsistentB (update_training_statuses today s) = true
    ∧ dueConsistentB (add_training ti today s).2 = true
    ∧ dueConsistentB (update_training tid ncd today s).2 = true := by
  have hdue2 : ∀ t ∈ s.records, recDueOk s.courses t = true :=
    List.all_eq_true.mp (show s.records.all (recDueOk s.courses) = true from hdue)
  refine ⟨?_, ?_, ?_⟩
  · have hrec : (update_training_statuses today s).records
        = (s.records.map (dueProject s.courses)).map (classifyStatus today) := rfl
    have hcs : (update_training_statuses today s).courses = s.courses := rfl
    unfold dueConsistentB
    rw [hrec, hcs, List.all_eq_true]
    intro x hx
    rw [List.mem_map] at hx
    obtain ⟨u, hu, rfl⟩ := hx
    rw [List.mem_map] at hu
    obtain ⟨t, ht, rfl⟩ := hu
    exact recDueOk_of_recompute s.courses today t
  · by_cases hv : trainingDataValid ti = true
    · have hrec : (add_training ti today s).2.records
          = ((s.records ++
              [({ id := s.nextRecordId, userid := ti.userid.getD "",
                  courseid := ti.courseid.getD "",
                  completion_date := some (ti.completion_date.getD ⟨0, 1, 1⟩),
                  due_date := none, status := none } : TrainingRecord)]).map
                (crudDueRow s.courses s.nextRecordId)).map
              (crudStatusRow today s.nextRecordId) := by
        simp [add_training, hv, crudDueUpdate, crudStatusUpdate]
      have hcs : (add_training ti today s).2.courses = s.courses := by
        simp [add_training, hv, crudDueUpdate, crudStatusUpdate]
      unfold dueConsistentB
      rw [hrec, hcs, List.all_eq_true]
      intro x hx
      rw [List.mem_map] at hx
      obtain ⟨u, hu, rfl⟩ := hx
      rw [List.mem_map] at hu
      obtain ⟨t, ht, rfl⟩ := hu
      rw [List.mem_append] at ht
      rcases ht with ht | ht
      · exact recDueOk_crudRows s.courses today s.nextRecordId t (hdue2 t ht)
      · rw [List.mem_singleton] at ht
        subst ht
        exact crudRows_fix s.courses today s.nextRecordId _ (by simp)
    · have hsame : (add_training ti today s).2 = s := by
        simp [add_training, hv]
      rw [hsame]; exact hdue
  · cases hf : s.records.find? (fun t => t.id == tid) with
    | none => simp [update_training, hf] at hok
    | some t0 =>
      cases he : t0.userid.isEmpty with
      | true => simp [update_training, hf, he] at hok
      | false =>
        have hrec : (update_training tid ncd today s).2.records
            = ((s.records.map (setCompletionRow tid ncd)).map
                (crudDueRow s.courses tid)).map (crudStatusRow today tid) := by
          simp [update_training, hf, he, crudDueUpdate, crudStatusUpdate]
        have hcs : (update_training tid ncd today s).2.courses = s.courses := by
          simp [update_training, hf, he, crudDueUpdate, crudStatusUpdate]
        unfold dueConsistentB
        rw [hrec, hcs, List.all_eq_true]
        intro x hx
        rw [List.mem_map] at hx
        obtain ⟨u, hu, rfl⟩ := hx
        rw [List.mem_map] at hu
        obtain ⟨v, hv2, rfl⟩ := hu
        rw [List.mem_map] at hv2
        obtain ⟨t, ht, rfl⟩ := hv2
        exact recDueOk_update_rows s.courses today tid ncd t (hdue2 t ht)

/-- A store already satisfying the due-date invariant, with one record
(id 1, owner dave). -/
def storeConsistent : Store :=
  { courses := [⟨"CPR", 12, "gym"⟩],
    members := [⟨1, "dave", "D", "V", "d@x", "Ineligible"⟩],
    records := [⟨1, "dave", "CPR", some ⟨2024, 1, 15⟩, some ⟨2025, 1, 15⟩, some "Current"⟩],
    logins := ["dave"], nextRecordId := 2, nextMemberId := 2 }

theorem C1_due_date_projection_witness :
    dueConsistentB (update_training_statuses d0 storeConsistent) = true
    ∧ dueConsistentB (add_training tiA d0 storeConsistent).2 = true
    ∧ dueConsistentB (update_training 1 (some ⟨2024, 3, 20⟩) d0 storeConsistent).2 = true :=
  C1_due_date_projection d0 storeConsistent tiA 1 (some ⟨2024, 3, 20⟩)
    (by decide) (by rfl)

/-- C2 (code bug): the claim asks that after any recompute
completion_date is null exactly when status is null, but the status
UPDATE of `update_training_statuses` is guarded by
`WHERE completion_date IS NOT NULL`, so its own CASE branch
`WHEN completion_date IS NULL THEN NULL` can never fire: a record whose
completion_date is null keeps whatever non-null status it had. -/
theorem C2_null_completion_keeps_status :
    (update_training_statuses d0 storeNullCompletion).records.map
        (fun t => (t.completion_date, t.status))
      = [(none, some "Current")] := by decide


/-- Applying the committed transactions of `add_training` in commit
order reproduces its final store: the transaction decomposition is
faithful to the operation. -/
lemma addTrainingTxns_final (ti : TrainingInput) (today : Date) (s : Store)
    (hv : trainingDataValid ti = true) :
    applyTxns (addTrainingTxns ti today) s = (add_training ti today s).2 := by
  simp [addTrainingTxns, applyTxns, hv, add_training, update_member_eligibility,
    crudDueUpdate, crudStatusUpdate]

/-- C3 (corrected): `update_training_statuses` does run its three
stages inside a single transaction, so a database error before its one
commit leaves the store unchanged; but `CRUDManager.add_training` spans
two transaction boundaries, the nested `_update_member_eligibility`
transaction committing first and alone, so an error between the two
commits leaves the eligibility write committed while the
insert / due-date / status writes are lost. -/
theorem C3_transaction_boundaries (today : Date) (s : Store) (ti : TrainingInput) (k : Nat)
    (hk : k < (utsTxns today).length)
    (hv : trainingDataValid ti = true) :
    applyTxns ((utsTxns today).take k) s = s
    ∧ (addTrainingTxns ti today).length = 2
    ∧ applyTxns ((addTrainingTxns ti today).take 1) s
        = update_member_eligibility (ti.userid.getD "") s := by
  refine ⟨?_, ?_, ?_⟩
  · have hk0 : k = 0 := Nat.lt_one_iff.mp (by simpa [utsTxns] using hk)
    subst hk0; rfl
  · simp [addTrainingTxns, hv]
  · simp [addTrainingTxns, hv, applyTxns]

theorem C3_transaction_boundaries_witness :
    applyTxns ((utsTxns d0).take 0) storeA = storeA
    ∧ (addTrainingTxns tiA d0).length = 2
    ∧ applyTxns ((addTrainingTxns tiA d0).take 1) storeA
        = update_member_eligibility "alice" storeA :=
  C3_transaction_boundaries d0 storeA tiA 0 (by decide) (by decide)

/-- C3 counterexample: after the first committed transaction of
`add_training` (and with the second one not yet committed, e.g. a
database error at that point), the observable store differs from both
the initial and the final store, refuting that all stages commit
atomically or not at all. -/
theorem C3_counterexample_split_commit :
    1 < (addTrainingTxns tiA d0).length
    ∧ applyTxns ((addTrainingTxns tiA d0).take 1) storeA ≠ storeA
    ∧ applyTxns ((addTrainingTxns tiA d0).take 1) storeA
        ≠ applyTxns (addTrainingTxns tiA d0) storeA :=
  ⟨by decide, by decide, by decide⟩


/-- `hasCurrentFor` is the existential it translates. -/
lemma hasCurrentFor_iff (recs : List TrainingRecord) (uid cid : String) :
    hasCurrentFor recs uid cid = true ↔
      ∃ t ∈ recs, t.userid = uid ∧ t.courseid = cid ∧ t.status = some "Current" := by
  unfold hasCurrentFor
  rw [List.any_eq_true]
  constructor
  · rintro ⟨t, ht, hp⟩
    refine ⟨t, ht, ?_⟩
    simpa [Bool.and_eq_true, beq_iff_eq, and_assoc] using hp
  · rintro ⟨t, ht, h1, h2, h3⟩
    exact ⟨t, ht, by simp [h1, h2, h3]⟩

/-- The eligibility written by the full-table aggregation is Eligible
exactly when every catalog course has a Current record of the
member. -/
lemma utsElig_eligible_iff (cs : List Course) (recs : List TrainingRecord) (uid : String) :
    utsElig cs recs uid = "Eligible" ↔
      ∀ c ∈ cs, ∃ t ∈ recs,
        t.userid = uid ∧ t.courseid = c.courseid ∧ t.status = some "Current" := by
  unfold utsElig
  by_cases h : cs.all (fun c => hasCurrentFor recs uid c.courseid) = true
  · rw [if_pos h]
    simp only [true_iff]
    intro c hc
    exact (hasCurrentFor_iff recs uid c.courseid).mp (List.all_eq_true.mp h c hc)
  · rw [if_neg h]
    constructor
    · intro habs
      exact absurd habs (by decide)
    · intro hall
      exact absurd (List.all_eq_true.mpr (fun c hc =>
        (hasCurrentFor_iff recs uid c.courseid).mpr (hall c hc))) h

/-- C4: under the full-table aggregation run by
`update_training_statuses` (Policy B), a member comes out Eligible iff
for every Course in the catalog the member has a TrainingRecord with
status Current in the resulting store; concretely, with catalog {A, B},
pat (Current for A only) comes out Ineligible and bob (Current for both
A and B) comes out Eligible. -/
theorem C4_policyB_all_courses (today : Date) (s : Store) (m : Member)
    (hm : m ∈ (update_training_statuses today s).members) :
    (m.eligibility = "Eligible" ↔
      ∀ c ∈ s.courses, ∃ t ∈ (update_training_statuses today s).records,
        t.userid = m.userid ∧ t.courseid = c.courseid ∧ t.status = some "Current")
    ∧ (update_training_statuses d0 storeScenario4).members.map Member.eligibility
        = ["Ineligible", "Eligible"] := by
  constructor
  · have hmm : (update_training_statuses today s).members
        = s.members.map
            (utsMemberRow s.courses (update_training_statuses today s).records) := rfl
    rw [hmm, List.mem_map] at hm
    obtain ⟨m0, hm0, rfl⟩ := hm
    simpa [utsMemberRow] using utsElig_eligible_iff s.courses
      (update_training_statuses today s).records m0.userid
  · decide

/-- The member row of bob after the full recompute of
`storeScenario4`. -/
def bobAfter : Member := ⟨2, "bob", "B", "O", "b@x", "Eligible"⟩

theorem C4_policyB_all_courses_witness :
    (bobAfter.eligibility = "Eligible" ↔
      ∀ c ∈ storeScenario4.courses,
        ∃ t ∈ (update_training_statuses d0 storeScenario4).records,
          t.userid = bobAfter.userid ∧ t.courseid = c.courseid
            ∧ t.status = some "Current")
    ∧ (update_training_statuses d0 storeScenario4).members.map Member.eligibility
        = ["Ineligible", "Eligible"] :=
  C4_policyB_all_courses d0 storeScenario4 bobAfter (by decide)


/-- C5 counterexample: the full-table aggregation does NOT set a
member with zero TrainingRecords to Ineligible when the course catalog
is empty: the doubly nested NOT EXISTS is vacuously satisfied and the
member is written Eligible. -/
theorem C5_counterexample_empty_catalog :
    storeEmptyCatalog.records = []
    ∧ (update_training_statuses d0 storeEmptyCatalog).members.map Member.eligibility
        = ["Eligible"] :=
  ⟨by decide, by decide⟩

/-- C5 (corrected): a member with zero TrainingRecords is set
Ineligible by `_update_member_eligibility` and by the inline
aggregation of `delete_training` whatever the catalog holds, and by the
full-table aggregation of `update_training_statuses` whenever the
course catalog is non-empty (with an empty catalog that aggregation
sets such a member to Eligible instead). -/
theorem C5_zero_records_ineligible (today : Date) (s : Store) (uid : String)
    (hzero : s.records.all (fun t => t.userid != uid) = true) :
    (∀ m ∈ (update_member_eligibility uid s).members,
        m.userid = uid → m.eligibility = "Ineligible")
    ∧ deleteElig s.records uid = "Ineligible"
    ∧ (s.courses ≠ [] →
        ∀ m ∈ (update_training_statuses today s).members,
          m.userid = uid → m.eligibility = "Ineligible") := by
  have hz : ∀ t ∈ s.records, (t.userid == uid) = false := by
    intro t ht
    have h1 := List.all_eq_true.mp hzero t ht
    rw [bne_iff_ne] at h1
    exact beq_eq_false_iff_ne.mpr h1
  refine ⟨?_, ?_, ?_⟩
  · intro m hm hmu
    have hmm : (update_member_eligibility uid s).members
        = s.members.map (umeMemberRow s.records uid) := rfl
    rw [hmm, List.mem_map] at hm
    obtain ⟨m0, hm0, rfl⟩ := hm
    unfold umeMemberRow at hmu ⊢
    by_cases h0 : (m0.userid == uid) = true
    · rw [if_pos h0]
      have humel : umeElig s.records uid = "Ineligible" := by
        unfold umeElig
        have h1 : s.records.any
            (fun t => t.userid == uid && t.status == some "Overdue") = false := by
          rw [List.any_eq_false]
          intro t ht
          simp [hz t ht]
        have h2 : s.records.any (fun t => t.userid == uid) = false := by
          rw [List.any_eq_false]
          intro t ht
          simp [hz t ht]
        rw [h1, h2]
        simp
      simp [humel]
    · rw [if_neg h0] at hmu
      exact absurd (beq_iff_eq.mpr hmu) h0
  · unfold deleteElig
    have h1 : s.records.any
        (fun t => t.userid == uid && (t.status == some "Overdue" || t.status.isNone))
          = false := by
      rw [List.any_eq_false]
      intro t ht
      simp [hz t ht]
    have h2 : s.records.any (fun t => t.userid == uid && t.status == some "Current")
        = false := by
      rw [List.any_eq_false]
      intro t ht
      simp [hz t ht]
    rw [h1, h2]
    simp
  · intro hcs m hm hmu
    have hmm : (update_training_statuses today s).members
        = s.members.map
            (utsMemberRow s.courses (update_training_statuses today s).records) := rfl
    rw [hmm, List.mem_map] at hm
    obtain ⟨m0, hm0, rfl⟩ := hm
    have hmu0 : m0.userid = uid := by simpa [utsMemberRow] using hmu
    have hz2 : ∀ t ∈ (update_training_statuses today s).records,
        (t.userid == uid) = false := by
      intro t ht
      have hr : (update_training_statuses today s).records
          = (s.records.map (dueProject s.courses)).map (classifyStatus today) := rfl
      rw [hr, List.mem_map] at ht
      obtain ⟨u, hu, rfl⟩ := ht
      rw [List.mem_map] at hu
      obtain ⟨t0, ht0, rfl⟩ := hu
      rw [classifyStatus_userid, dueProject_userid]
      exact hz t0 ht0
    obtain ⟨c, hc⟩ := List.exists_mem_of_ne_nil s.courses hcs
    have hnall : ¬ (s.courses.all (fun c =>
        hasCurrentFor (update_training_statuses today s).records m0.userid c.courseid)
          = true) := by
      intro hall
      obtain ⟨t, ht, h1, h2, h3⟩ :=
        (hasCurrentFor_iff _ _ _).mp (List.all_eq_true.mp hall c hc)
      have hfz := hz2 t ht
      rw [h1, hmu0] at hfz
      simp at hfz
    show (utsMemberRow s.courses (update_training_statuses today s).records m0).eligibility
        = "Ineligible"
    unfold utsMemberRow utsElig
    rw [if_neg hnall]

theorem C5_zero_records_ineligible_witness :
    (∀ m ∈ (update_member_eligibility "alice" storeA).members,
        m.userid = "alice" → m.eligibility = "Ineligible")
    ∧ deleteElig storeA.records "alice" = "Ineligible"
    ∧ (storeA.courses ≠ [] →
        ∀ m ∈ (update_training_statuses d0 storeA).members,
          m.userid = "alice" → m.eligibility = "Ineligible") :=
  C5_zero_records_ineligible d0 storeA "alice" (by decide)


/-- Row-level idempotence of due-date projection followed by status
classification. -/
lemma row_recompute_idem (cs : List Course) (today : Date) (t : TrainingRecord) :
    classifyStatus today (dueProject cs (classifyStatus today (dueProject cs t)))
      = classifyStatus today (dueProject cs t) := by
  obtain ⟨i, u, cid, comp, due, st⟩ := t
  cases comp <;> cases hl : lookupCourse cs cid <;>
    simp [dueProject, classifyStatus, hl]

/-- C6: the full recompute is idempotent: running
`update_training_statuses` twice in succession with the same current
date and no intervening mutation leaves every due_date, status and
eligibility exactly as after one run. -/
theorem C6_recompute_idempotent (today : Date) (s : Store) :
    update_training_statuses today (update_training_statuses today s)
      = update_training_statuses today s := by
  have hrecs : (update_training_statuses today (update_training_statuses today s)).records
      = (update_training_statuses today s).records := by
    show ((((s.records.map (dueProject s.courses)).map (classifyStatus today)).map
          (dueProject s.courses)).map (classifyStatus today))
        = (s.records.map (dueProject s.courses)).map (classifyStatus today)
    simp only [List.map_map]
    apply List.map_congr_left
    intro t ht
    exact row_recompute_idem s.courses today t
  have hmem : (update_training_statuses today (update_training_statuses today s)).members
      = (update_training_statuses today s).members := by
    have h1 : (update_training_statuses today (update_training_statuses today s)).members
        = ((update_training_statuses today s).members).map
            (utsMemberRow s.courses
              (update_training_statuses today (update_training_statuses today s)).records) := rfl
    rw [h1, hrecs]
    rw [show (update_training_statuses today s).members
        = s.members.map
            (utsMemberRow s.courses (update_training_statuses today s).records) from rfl]
    rw [List.map_map]
    apply List.map_congr_left
    intro m hm
    obtain ⟨i, u, fn, ln, em, el⟩ := m
    rfl
  calc update_training_statuses today (update_training_statuses today s)
      = { update_training_statuses today s with
            records :=
              (update_training_statuses today (update_training_statuses today s)).records,
            members :=
              (update_training_statuses today (update_training_statuses today s)).members } :=
        rfl
    _ = { update_training_statuses today s with
            records := (update_training_statuses today s).records,
            members := (update_training_statuses today s).members } := by
        rw [hrecs, hmem]
    _ = update_training_statuses today s := rfl


/-- C7 counterexample: the live add handler in `server_training_data`
(the one wired into the app by app.py) returns success after inserting
a record whose due_date is null even though its completion date is set
and its course resolves, and without touching any eligibility: no
recompute ran before returning. -/
theorem C7_counterexample_no_recompute :
    dueConsistentB storeA = true
    ∧ dueConsistentB (td_handle_add_training tdA storeA) = false
    ∧ (td_handle_add_training tdA storeA).members = storeA.members :=
  ⟨by decide, by decide, by decide⟩

/-- C7 (corrected): the CRUDManager training operations do run an
eligibility recompute for the affected member before returning success
(their final member table is exactly the output of
`_update_member_eligibility`, or of the inline aggregation for
delete), and `TrainingCRUDManager.add_training_record` runs the full
pipeline after its insert; but the `server_training_data` handlers run
no recompute at all: they never touch the member table, and their
insert leaves due_date null. -/
theorem C7_mutation_recompute_paths (ti : TrainingInput) (tid : Nat) (ncd : Option Date)
    (today : Date) (s : Store) (t0 : TrainingRecord) (inp : TdInput)
    (uid cid : String) (cd : Date)
    (hv : trainingDataValid ti = true)
    (hfind : s.records.find? (fun t => t.id == tid) = some t0)
    (hne : t0.userid.isEmpty = false) :
    (add_training ti today s).2.members
        = (update_member_eligibility (ti.userid.getD "") s).members
    ∧ (update_training tid ncd today s).2.members
        = (update_member_eligibility t0.userid s).members
    ∧ (∀ m ∈ (delete_training tid s).2.members, m.userid = t0.userid →
        m.eligibility
          = deleteElig (s.records.filter (fun t => !(t.id == tid))) t0.userid)
    ∧ (tcm_add_training_record uid cid cd today s).2
        = update_training_statuses today
            { s with
                records := s.records ++
                  [({ id := s.nextRecordId, userid := uid, courseid := cid,
                      completion_date := some cd, due_date := none,
                      status := none } : TrainingRecord)],
                nextRecordId := s.nextRecordId + 1 }
    ∧ (td_handle_add_training inp s).members = s.members
    ∧ (td_handle_update_training tid ncd s).members = s.members
    ∧ (td_handle_delete_training tid s).members = s.members := by
  refine ⟨?_, ?_, ?_, rfl, ?_, rfl, rfl⟩
  · simp [add_training, hv]
  · simp [update_training, hfind, hne]
  · intro m hm hmu
    have hdd : (delete_training tid s).2.members
        = s.members.map (fun m0 =>
            if m0.userid == t0.userid then
              { m0 with eligibility :=
                  deleteElig (s.records.filter (fun t => !(t.id == tid))) t0.userid }
            else m0) := by
      simp [delete_training, hfind, hne]
    rw [hdd, List.mem_map] at hm
    obtain ⟨m0, hm0, rfl⟩ := hm
    by_cases h0 : (m0.userid == t0.userid) = true
    · simp [h0]
    · rw [if_neg h0] at hmu ⊢
      exact absurd (beq_iff_eq.mpr hmu) h0
  · unfold td_handle_add_training
    by_cases hin : (inp.courseid.isEmpty || inp.userid.isEmpty) = true
    · rw [if_pos hin]
    · rw [if_neg hin]

/-- The single record of `storeConsistent`. -/
def rec1 : TrainingRecord :=
  ⟨1, "dave", "CPR", some ⟨2024, 1, 15⟩, some ⟨2025, 1, 15⟩, some "Current"⟩

theorem C7_mutation_recompute_paths_witness :
    (add_training tiA d0 storeConsistent).2.members
        = (update_member_eligibility "alice" storeConsistent).members
    ∧ (update_training 1 (some ⟨2024, 3, 20⟩) d0 storeConsistent).2.members
        = (update_member_eligibility rec1.userid storeConsistent).members
    ∧ (∀ m ∈ (delete_training 1 storeConsistent).2.members, m.userid = rec1.userid →
        m.eligibility
          = deleteElig (storeConsistent.records.filter (fun t => !(t.id == 1))) rec1.userid)
    ∧ (tcm_add_training_record "eve" "CPR" ⟨2024, 1, 15⟩ d0 storeConsistent).2
        = update_training_statuses d0
            { storeConsistent with
                records := storeConsistent.records ++
                  [({ id := storeConsistent.nextRecordId, userid := "eve",
                      courseid := "CPR", completion_date := some ⟨2024, 1, 15⟩,
                      due_date := none, status := none } : TrainingRecord)],
                nextRecordId := storeConsistent.nextRecordId + 1 }
    ∧ (td_handle_add_training tdA storeConsistent).members = storeConsistent.members
    ∧ (td_handle_update_training 1 (some ⟨2024, 3, 20⟩) storeConsistent).members
        = storeConsistent.members
    ∧ (td_handle_delete_training 1 storeConsistent).members = storeConsistent.members :=
  C7_mutation_recompute_paths tiA 1 (some ⟨2024, 3, 20⟩) d0 storeConsistent rec1 tdA
    "eve" "CPR" ⟨2024, 1, 15⟩ (by decide) (by decide) (by decide)

/-- C8: creating a member or a training record through CRUDManager with
any required field missing or empty raises ValidationError before any
database write: the call returns no success value and the store is
unchanged. -/
theorem C8_validation_before_write (md : MemberInput) (ti : TrainingInput)
    (today : Date) (s : Store)
    (hmd : present md.first_name = false ∨ present md.last_name = false
      ∨ present md.email = false)
    (hti : present ti.userid = false ∨ present ti.courseid = false
      ∨ ti.completion_date = none) :
    ((add_member md s).2 = s ∧ isOkResult (add_member md s).1 = false)
    ∧ ((add_training ti today s).2 = s
        ∧ isOkResult (add_training ti today s).1 = false) := by
  have h1 : memberDataValid md = false := by
    rcases hmd with h | h | h <;> simp [memberDataValid, h]
  have h2 : trainingDataValid ti = false := by
    rcases hti with h | h | h <;> simp [trainingDataValid, h]
  refine ⟨⟨?_, ?_⟩, ?_, ?_⟩ <;> simp [add_member, add_training, h1, h2, isOkResult]

theorem C8_validation_before_write_witness :
    ((add_member ⟨some "A", some "B", none⟩ storeA).2 = storeA
      ∧ isOkResult (add_member ⟨some "A", some "B", none⟩ storeA).1 = false)
    ∧ ((add_training ⟨some "alice", some "", some ⟨2024, 1, 15⟩⟩ d0 storeA).2 = storeA
        ∧ isOkResult
            (add_training ⟨some "alice", some "", some ⟨2024, 1, 15⟩⟩ d0 storeA).1
          = false) :=
  C8_validation_before_write ⟨some "A", some "B", none⟩
    ⟨some "alice", some "", some ⟨2024, 1, 15⟩⟩ d0 storeA (by decide) (by decide)

/-- C9: every member created through `CRUDManager.add_member` is
inserted with eligibility hardcoded to Ineligible: the member table
afterwards is the old one plus one Ineligible row (consistent with the
new member owning zero TrainingRecords). -/
theorem C9_new_member_ineligible (md : MemberInput) (s : Store)
    (hv : memberDataValid md = true) :
    (add_member md s).2.members.map Member.eligibility
      = s.members.map Member.eligibility ++ ["Ineligible"] := by
  simp [add_member, hv]

theorem C9_new_member_ineligible_witness :
    (add_member ⟨some "Ann", some "Lee", some "a@x"⟩ storeA).2.members.map
        Member.eligibility
      = storeA.members.map Member.eligibility ++ ["Ineligible"] :=
  C9_new_member_ineligible ⟨some "Ann", some "Lee", some "a@x"⟩ storeA (by decide)

/-- C10: `_update_member_eligibility` (the per-member recompute invoked
by `add_training` and `update_training`) writes Eligible for any member
owning at least one TrainingRecord none of which has status Overdue,
even if no record has status Current (for example when every status is
null): its CASE only tests existence and absence of Overdue. -/
theorem C10_no_overdue_means_eligible (s : Store) (uid : String) (m : Member)
    (hsome : s.records.any (fun t => t.userid == uid) = true)
    (hnoov : s.records.all
      (fun t => !(t.userid == uid) || !(t.status == some "Overdue")) = true)
    (hm : m ∈ (update_member_eligibility uid s).members)
    (hmu : m.userid = uid) :
    m.eligibility = "Eligible" := by
  have humel : umeElig s.records uid = "Eligible" := by
    unfold umeElig
    have h1 : s.records.any
        (fun t => t.userid == uid && t.status == some "Overdue") = false := by
      rw [List.any_eq_false]
      intro t ht habs
      rw [Bool.and_eq_true] at habs
      have hall := List.all_eq_true.mp hnoov t ht
      rw [habs.1, habs.2] at hall
      simp at hall
    rw [h1, hsome]
    simp
  have hmm : (update_member_eligibility uid s).members
      = s.members.map (umeMemberRow s.records uid) := rfl
  rw [hmm, List.mem_map] at hm
  obtain ⟨m0, hm0, rfl⟩ := hm
  unfold umeMemberRow at hmu ⊢
  by_cases h0 : (m0.userid == uid) = true
  · rw [if_pos h0]
    simp [humel]
  · rw [if_neg h0] at hmu
    exact absurd (beq_iff_eq.mpr hmu) h0

theorem C10_no_overdue_means_eligible_witness :
    (⟨1, "dave", "D", "V", "d@x", "Eligible"⟩ : Member).eligibility = "Eligible" :=
  C10_no_overdue_means_eligible storeNullStatus "dave"
    ⟨1, "dave", "D", "V", "d@x", "Eligible"⟩ (by decide) (by decide) (by decide) rfl

end SSApp
